import Mathlib

/-!
Shallow embedding of the `react-tiny-store` core (`src/lib/store.ts`,
`src/lib/hooks.tsx`, `src/lib/createContextSync.tsx`) and proofs about it.

JS values are modelled by an arbitrary type `α` with decidable equality;
`Object.is` is modelled as equality on `α` (each JS reference is one element
of `α`).  A JS `Set` of callbacks is modelled as an insertion-ordered,
duplicate-free `List Nat` of callback identities.  Exceptions are modelled
with `Except` / an explicit `threw` flag.
-/

namespace ReactTinyStore

/-- JS `Set.add`: append the element if it is not already present
(insertion order preserved, duplicates never created). -/
def setAdd (n : Nat) (q : List Nat) : List Nat :=
  if n ∈ q then q else q ++ [n]

/-- State of the process-wide `BatchNotifier`: the reentrancy depth counter
`_depth` and the pending-notifier set `_queue` (notifiers identified by `Nat`). -/
structure BState where
  depth : Nat
  queue : List Nat
deriving Repr, DecidableEq

/-- `BatchNotifier._flush`: if the queue is nonempty, capture it into `run`,
clear the queue, then invoke each captured notifier.  Returns the new
coordinator state together with the list of notifiers invoked, in order;
the clearing happens before any invocation. -/
def flushB (s : BState) : BState × List Nat :=
  if s.queue = [] then (s, [])
  else ({ s with queue := [] }, s.queue)

/-- `BatchNotifier.enqueue`: while a batch is active (`depth > 0`) the notifier
is added to the de-duplicating pending set; with no batch active it is invoked
immediately (returned in the invocation list). -/
def enqueueB (n : Nat) (s : BState) : BState × List Nat :=
  if s.depth > 0 then ({ s with queue := setAdd n s.queue }, [])
  else (s, [n])

/-- Synchronous batch scripts: enqueue a notifier, sequence two scripts,
run a nested `BatchNotifier.run`, or throw an exception. -/
inductive BAct where
  | enq : Nat → BAct
  | seq : BAct → BAct → BAct
  | batched : BAct → BAct
  | throwErr : BAct

/-- Result of executing a batch script: final coordinator state, the log of
notifier invocations in order, and whether an exception escaped. -/
structure BRes where
  st : BState
  log : List Nat
  threw : Bool
deriving Repr, DecidableEq

/-- Execution of a batch script against the `BatchNotifier`.
`batched a` is `run(fn)`: increment `_depth`, run the body, and in a
`finally` block decrement `_depth` and flush once depth is back to 0 —
the decrement and flush happen whether or not the body threw, and the
exception then continues to propagate. -/
def execB : BAct → BState → BRes
  | .enq n, s =>
      let p := enqueueB n s
      ⟨p.1, p.2, false⟩
  | .seq a b, s =>
      let r := execB a s
      if r.threw then r
      else
        let r2 := execB b r.st
        ⟨r2.st, r.log ++ r2.log, r2.threw⟩
  | .batched a, s =>
      let r := execB a { s with depth := s.depth + 1 }
      let s2 : BState := { r.st with depth := r.st.depth - 1 }
      if s2.depth = 0 then
        let p := flushB s2
        ⟨p.1, r.log ++ p.2, r.threw⟩
      else ⟨s2, r.log, r.threw⟩
  | .throwErr, s => ⟨s, [], true⟩

/-- A `TinyStore`: current `_state`, the construction-time `_initial`
(never reassigned), and the `_listeners` set (listener identities in
insertion order). -/
structure StoreSt (α : Type) where
  state : α
  initial : α
  listeners : List Nat
deriving Repr, DecidableEq

/-- One store wired to the process-wide `BatchNotifier` (the store's
`_notify` is notifier id `0`), plus a log of listener invocations. -/
structure World (α : Type) where
  store : StoreSt α
  bs : BState
  log : List Nat
deriving Repr, DecidableEq

/-- `TinyStore._notify`: snapshot the listener set (`Array.from`) and invoke
each listener of the snapshot once, in order.  Listeners are inert here
(reentrant listeners are modelled separately); invoking appends to the log. -/
def notifyNow (w : World α) : World α :=
  { w with log := w.log ++ w.store.listeners }

/-- Interpret a list of notifier invocations returned by the coordinator:
id `0` is this store's `_notify`. -/
def runNotifiers (ns : List Nat) (w : World α) : World α :=
  ns.foldl (fun w' n => if n = 0 then notifyNow w' else w') w

/-- Shared tail of `setState` / `replace` / `reset`: the `Object.is` gate,
the synchronous assignment, and `enqueueNotify(this._notify)`. -/
def commit [DecidableEq α] (next : α) (w : World α) : World α :=
  if next = w.store.state then w
  else
    let w1 : World α := { w with store := { w.store with state := next } }
    let p := enqueueB 0 w1.bs
    runNotifiers p.2 { w1 with bs := p.1 }

/-- The write operations of the store API. -/
inductive WriteOp (α : Type) where
  | set : α → WriteOp α
  | setF : (α → α) → WriteOp α
  | repl : α → WriteOp α
  | reset : WriteOp α

/-- The `next` value a write computes before the `Object.is` gate:
`setState` with a plain value or with an updater applied to the current
state, `replace` with a plain value, `reset` with the frozen initial. -/
def opNextV : WriteOp α → α → α → α
  | .set v, _, _ => v
  | .setF f, s, _ => f s
  | .repl v, _, _ => v
  | .reset, _, i => i

/-- Execute one write operation against the world. -/
def doWrite [DecidableEq α] (op : WriteOp α) (w : World α) : World α :=
  commit (opNextV op w.store.state w.store.initial) w

/-- Execute a sequence of writes (the body of a batch, or unbatched calls). -/
def runWrites [DecidableEq α] (ws : List (WriteOp α)) (w : World α) : World α :=
  ws.foldl (fun w' op => doWrite op w') w

/-- `batch(fn)` where `fn` performs the given writes on this store:
`BatchNotifier.run` increments depth, runs the body, decrements depth and
flushes when depth returns to 0. -/
def batchW [DecidableEq α] (ws : List (WriteOp α)) (w : World α) : World α :=
  let w1 : World α := { w with bs := { w.bs with depth := w.bs.depth + 1 } }
  let w2 := runWrites ws w1
  let bs2 : BState := { w2.bs with depth := w2.bs.depth - 1 }
  if bs2.depth = 0 then
    let p := flushB bs2
    runNotifiers p.2 { w2 with bs := p.1 }
  else { w2 with bs := bs2 }

/-- `setState` with an updater that may throw (`Except.error` = throw):
the updater runs before the gate, so a throw reaches the caller before any
mutation or enqueue. -/
def setStateE [DecidableEq α] (f : α → Except Unit α) (w : World α) :
    World α × Option Unit :=
  match f w.store.state with
  | .error e => (w, some e)
  | .ok next => (commit next w, none)

/-- The pure fold of the computed write values: the state a store holds
after each write has (conditionally) assigned its computed `next`. -/
def foldNext : List (WriteOp α) → α → α → α
  | [], s, _ => s
  | op :: rest, s, i => foldNext rest (opNextV op s i) i

/-- Whether some write in the sequence passes the `Object.is` gate, i.e.
computes a `next` different from the state current at its point of use. -/
def anyEffective [DecidableEq α] : List (WriteOp α) → α → α → Bool
  | [], _, _ => false
  | op :: rest, s, i =>
      if opNextV op s i = s then anyEffective rest s i else true

/-- The `T | ((p: T) => T)` argument accepted by `setState`. -/
inductive Upd (α : Type) where
  | val : α → Upd α
  | fn : (α → α) → Upd α

/-- `typeof u === "function" ? u(state) : u` — the `next` value. -/
def evalUpd : Upd α → α → α
  | .val v, _ => v
  | .fn f, s => f s

/-- The context-local store created once per `Provider` in
`createContextSync.tsx` (its private `makeStore`, lines 11-31), together
with the Provider's frozen hydration snapshot (`hydRef`) and a listener
invocation log.  This store has no `reset`, no `getInitialState` and no
batching: notification is a direct `listeners.forEach((l) => l())`. -/
structure CtxWorld (α : Type) where
  state : α
  listeners : List Nat
  hyd : α
  log : List Nat
deriving Repr, DecidableEq

/-- Shared tail of the context-local `setState` / `replace`: `Object.is`
gate, assignment, then an immediate `listeners.forEach((l) => l())`
(listeners inert here, so the pass appends the listener list to the log). -/
def ctxCommit [DecidableEq α] (next : α) (w : CtxWorld α) : CtxWorld α :=
  if next = w.state then w
  else { w with state := next, log := w.log ++ w.listeners }

/-- Context-local `getState`. -/
def ctxGetState (w : CtxWorld α) : α := w.state

/-- Context-local `setState`. -/
def ctxSetState [DecidableEq α] (u : Upd α) (w : CtxWorld α) : CtxWorld α :=
  ctxCommit (evalUpd u w.state) w

/-- Context-local `replace`. -/
def ctxReplace [DecidableEq α] (v : α) (w : CtxWorld α) : CtxWorld α :=
  ctxCommit v w

/-- Context-local `setState` with an updater that may throw: the updater
runs before the gate, so a throw reaches the caller before any mutation. -/
def ctxSetStateE [DecidableEq α] (f : α → Except Unit α) (w : CtxWorld α) :
    CtxWorld α × Option Unit :=
  match f w.state with
  | .error e => (w, some e)
  | .ok next => (ctxCommit next w, none)

/-- The writes available on the context-local store. -/
inductive CtxOp (α : Type) where
  | set : Upd α → CtxOp α
  | repl : α → CtxOp α

def ctxDoWrite [DecidableEq α] : CtxOp α → CtxWorld α → CtxWorld α
  | .set u, w => ctxSetState u w
  | .repl v, w => ctxReplace v w

def ctxRunWrites [DecidableEq α] (ops : List (CtxOp α)) (w : CtxWorld α) : CtxWorld α :=
  ops.foldl (fun w' op => ctxDoWrite op w') w

/-- Mounting a Provider with `initial`: one store seeded with `initial`,
`hydRef` frozen to the same value. -/
def providerInit (i : α) : CtxWorld α := ⟨i, [], i, []⟩

/-- `TinyStore.getInitialState`. -/
def getInitialState (st : StoreSt α) : α := st.initial

/-- The `getServerSnapshot` handed to `useSyncExternalStore` by
`useStoreSelector`: the selector applied to `store.getInitialState()`. -/
def getServerSnap (sel : α → S) (st : StoreSt α) : S := sel st.initial

/-- The server snapshot of the context wrapper's `useSelector`: the selector
applied to the Provider's frozen `hydRef` value. -/
def ctxServerSnap (sel : α → S) (w : CtxWorld α) : S := sel w.hyd

/-- One notification pass over a *snapshot* of the listener set
(`for (const l of Array.from(this._listeners)) l()` in `TinyStore._notify`):
`todo` is the captured snapshot, `cur` the live set; invoking listener `l`
may change the live set through `eff l` (e.g. calling unsubscribe
functions).  Returns the final live set and the invocation log. -/
def runPass (eff : Nat → List Nat → List Nat) : List Nat → List Nat → List Nat × List Nat
  | [], cur => (cur, [])
  | l :: rest, cur =>
      let cur2 := eff l cur
      let p := runPass eff rest cur2
      (p.1, l :: p.2)

/-- One notification pass over the *live* listener set
(`listeners.forEach((l) => l())` in the context-local `makeStore`): a
pending entry is visited only while it is still in the live set, because JS
`Set.prototype.forEach` does not visit entries deleted before being
reached.  Listener effects are removals here; insertion during a pass is
outside this model. -/
def runPassLive (eff : Nat → List Nat → List Nat) : List Nat → List Nat → List Nat × List Nat
  | [], cur => (cur, [])
  | l :: rest, cur =>
      if l ∈ cur then
        let cur2 := eff l cur
        let p := runPassLive eff rest cur2
        (p.1, l :: p.2)
      else runPassLive eff rest cur

/-- A JS closure with its reference identity: `id` models the function
object's identity (what `!==` compares), `fn` its behaviour. -/
structure FnId (A B : Type) where
  id : Nat
  fn : A → B

/-- An equality-function closure with its reference identity. -/
structure EqFn (S : Type) where
  id : Nat
  fn : S → S → Bool

/-- The refs kept by `useStoreSelector`: `selRef` and `eqRef` hold the
identities of the last observed selector and equality function, `last` the
baseline value. -/
structure SelState (S : Type) where
  selId : Nat
  eqId : Nat
  last : S
deriving Repr, DecidableEq

/-- First render of `useStoreSelector`: refs seeded with the given
functions, baseline seeded with `selector(store.getState())`. -/
def initSel (sel : FnId α S) (eqf : EqFn S) (cur : α) : SelState S :=
  ⟨sel.id, eqf.id, sel.fn cur⟩

/-- A re-render of `useStoreSelector` (hooks.tsx lines 47-51): if the
selector or the equality function identity changed, both refs are updated
and the baseline is immediately re-seeded from the current store state with
the new selector; otherwise nothing changes. -/
def renderSel (sel : FnId α S) (eqf : EqFn S) (cur : α) (st : SelState S) : SelState S :=
  if st.selId ≠ sel.id ∨ st.eqId ≠ eqf.id then ⟨sel.id, eqf.id, sel.fn cur⟩
  else st

/-- `getSnap` of `useStoreSelector` (hooks.tsx lines 53-59): recompute the
selected value, return the cached baseline when the equality function says
nothing changed, otherwise update the baseline and return the new value. -/
def pollSel (sel : α → S) (eqf : S → S → Bool) (cur : α) (st : SelState S) :
    SelState S × S :=
  let next := sel cur
  if eqf st.last next then (st, st.last)
  else ({ st with last := next }, next)

/-- The single ref kept by the context wrapper's `useSelector`
(createContextSync.tsx line 84): only the baseline, seeded on first render. -/
structure CtxSelState (S : Type) where
  last : S
deriving Repr, DecidableEq

/-- First render of the context wrapper's `useSelector`. -/
def ctxInitSel (sel : FnId α S) (cur : α) : CtxSelState S := ⟨sel.fn cur⟩

/-- A re-render of the context wrapper's `useSelector`: the hook has no
re-seed branch — `useRef` keeps its first value — so a re-render leaves the
baseline untouched whatever the new function identities are. -/
def ctxRenderSel (_sel : FnId α S) (_eqf : EqFn S) (_cur : α) (st : CtxSelState S) :
    CtxSelState S :=
  st

/-- The snapshot poll of the context wrapper's `useSelector`
(createContextSync.tsx lines 87-92), using the closures of the latest
render. -/
def ctxPollSel (sel : α → S) (eqf : S → S → Bool) (cur : α) (st : CtxSelState S) :
    CtxSelState S × S :=
  let next := sel cur
  if eqf st.last next then (st, st.last)
  else (⟨next⟩, next)

/-- `TinyStore.getState` as seen through the world. -/
def storeGetState (w : World α) : α := w.store.state

/-- `TinyStore.setState` on the world. -/
def storeSetState [DecidableEq α] (u : Upd α) (w : World α) : World α :=
  commit (evalUpd u w.store.state) w

/-- `TinyStore.replace` on the world. -/
def storeReplace [DecidableEq α] (v : α) (w : World α) : World α :=
  commit v w

/-- `TinyStore.reset` on the world. -/
def storeReset [DecidableEq α] (w : World α) : World α :=
  commit w.store.initial w

/-- The shape of the `storeAccess` object a controller factory receives:
which of the four operations the object exposes, and with what behaviour. -/
structure StoreAccessM (α : Type) where
  get? : Option (World α → α)
  set? : Option (Upd α → World α → World α)
  replace? : Option (α → World α → World α)
  reset? : Option (World α → World α)

/-- The api object built by `useStoreActions` (hooks.tsx lines 97-105):
`{ get: store.getState, set: store.setState, replace: store.replace,
reset: store.reset }`. -/
def hooksStoreAccess (α : Type) [DecidableEq α] : StoreAccessM α :=
  ⟨some storeGetState, some storeSetState, some storeReplace, some storeReset⟩

/-- The shape of the `storeAccess` object built by the context wrapper,
over the context-local store. -/
structure CtxStoreAccessM (α : Type) where
  get? : Option (CtxWorld α → α)
  set? : Option (Upd α → CtxWorld α → CtxWorld α)
  replace? : Option (α → CtxWorld α → CtxWorld α)
  reset? : Option (CtxWorld α → CtxWorld α)

/-- The api object built by the context wrapper's `useActions`
(createContextSync.tsx lines 103-106): the object literal is
`{ get: getState, set: setState, replace }` — it has no `reset` member
(and the context-local store defines no `reset` method at all). -/
def ctxStoreAccess (α : Type) [DecidableEq α] : CtxStoreAccessM α :=
  ⟨some ctxGetState, some ctxSetState, some ctxReplace, none⟩

theorem setAdd_nodup {n : Nat} {q : List Nat} (h : q.Nodup) : (setAdd n q).Nodup := by
  unfold setAdd
  split
  · exact h
  · next hn => simpa [List.nodup_append] using ⟨h, by simpa using hn⟩

theorem mem_setAdd_self (n : Nat) (q : List Nat) : n ∈ setAdd n q := by
  unfold setAdd
  split
  · assumption
  · simp

theorem setAdd_idem (n : Nat) (q : List Nat) : setAdd n (setAdd n q) = setAdd n q := by
  unfold setAdd
  by_cases h : n ∈ q <;> simp [h]

theorem flushB_queue (s : BState) : (flushB s).1.queue = [] := by
  unfold flushB
  split
  · next h => simpa using h
  · rfl

theorem flushB_depth (s : BState) : (flushB s).1.depth = s.depth := by
  unfold flushB
  split <;> rfl

theorem flushB_run (s : BState) : (flushB s).2 = s.queue := by
  unfold flushB
  split
  · next h => simp [h]
  · rfl

/-- Every script execution restores the depth counter it started with,
throwing bodies included (the decrement sits in a `finally`). -/
theorem execB_depth (a : BAct) (s : BState) : (execB a s).st.depth = s.depth := by
  induction a generalizing s with
  | enq n =>
      simp only [execB, enqueueB]
      split <;> rfl
  | seq a b iha ihb =>
      simp only [execB]
      split
      · exact iha s
      · simp [ihb, iha]
  | batched a ih =>
      have h1 : (execB a { s with depth := s.depth + 1 }).st.depth = s.depth + 1 := ih _
      simp only [execB]
      split
      · rw [flushB_depth]; simp [h1]
      · simp [h1]
  | throwErr => rfl

/-- While a batch is active (`depth > 0`), no notifier is ever invoked:
the invocation log of any script run at positive depth is empty. -/
theorem execB_log_empty (a : BAct) (s : BState) (h : 0 < s.depth) :
    (execB a s).log = [] := by
  induction a generalizing s with
  | enq n =>
      simp only [execB, enqueueB]
      split
      · rfl
      · omega
  | seq a b iha ihb =>
      simp only [execB]
      split
      · exact iha s h
      · have hd : (execB a s).st.depth = s.depth := execB_depth a s
        simp [iha s h, ihb _ (hd ▸ h)]
  | batched a ih =>
      have h1 : (execB a { s with depth := s.depth + 1 }).st.depth = s.depth + 1 :=
        execB_depth a _
      have hlog : (execB a { s with depth := s.depth + 1 }).log = [] :=
        ih _ (by simp)
      simp only [execB]
      split
      · next h0 => simp [h1] at h0; omega
      · simp [hlog]
  | throwErr => rfl

/-- The pending set stays duplicate-free through any script. -/
theorem execB_queue_nodup (a : BAct) (s : BState) (h : s.queue.Nodup) :
    (execB a s).st.queue.Nodup := by
  induction a generalizing s with
  | enq n =>
      simp only [execB, enqueueB]
      split
      · exact setAdd_nodup h
      · exact h
  | seq a b iha ihb =>
      simp only [execB]
      split
      · exact iha s h
      · simpa using ihb _ (iha s h)
  | batched a ih =>
      simp only [execB]
      split
      · rw [flushB_queue]; simp
      · simpa using ih { s with depth := s.depth + 1 } h
  | throwErr => exact h

/-- With no batch active and an empty queue, running any script returns
control with the queue empty again (the depth-0 queue invariant). -/
theorem execB_queue_empty (a : BAct) (s : BState) (h0 : s.depth = 0)
    (hq : s.queue = []) : (execB a s).st.queue = [] := by
  induction a generalizing s with
  | enq n =>
      simp only [execB, enqueueB]
      split
      · omega
      · exact hq
  | seq a b iha ihb =>
      simp only [execB]
      split
      · exact iha s h0 hq
      · have hd : (execB a s).st.depth = s.depth := execB_depth a s
        simpa using ihb _ (by omega) (iha s h0 hq)
  | batched a ih =>
      simp only [execB]
      split
      · rw [flushB_queue]
      · next hne =>
          have h1 : (execB a { s with depth := s.depth + 1 }).st.depth = s.depth + 1 :=
            execB_depth a _
          exact absurd (by rw [h1]; omega) hne
  | throwErr => exact hq

theorem runNotifiers_store (ns : List Nat) (w : World α) :
    (runNotifiers ns w).store = w.store := by
  induction ns generalizing w with
  | nil => rfl
  | cons n ns ih =>
      show (runNotifiers ns (if n = 0 then notifyNow w else w)).store = w.store
      rw [ih]
      split <;> rfl

theorem runNotifiers_bs (ns : List Nat) (w : World α) :
    (runNotifiers ns w).bs = w.bs := by
  induction ns generalizing w with
  | nil => rfl
  | cons n ns ih =>
      show (runNotifiers ns (if n = 0 then notifyNow w else w)).bs = w.bs
      rw [ih]
      split <;> rfl

theorem runNotifiers_zero (w : World α) : runNotifiers [0] w = notifyNow w := rfl

theorem commit_noop [DecidableEq α] {v : α} {w : World α} (h : v = w.store.state) :
    commit v w = w := by
  unfold commit
  rw [if_pos h]

theorem commit_pos [DecidableEq α] {v : α} {w : World α} (h : 0 < w.bs.depth)
    (hne : v ≠ w.store.state) :
    commit v w = { w with store := { w.store with state := v },
                          bs := { w.bs with queue := setAdd 0 w.bs.queue } } := by
  unfold commit
  rw [if_neg hne]
  simp only [enqueueB, if_pos h]
  rfl

theorem commit_zero [DecidableEq α] {v : α} {w : World α} (h : w.bs.depth = 0)
    (hne : v ≠ w.store.state) :
    commit v w = { w with store := { w.store with state := v },
                          log := w.log ++ w.store.listeners } := by
  unfold commit
  rw [if_neg hne]
  simp [enqueueB, h, runNotifiers_zero, notifyNow]

theorem commit_state [DecidableEq α] (v : α) (w : World α) :
    (commit v w).store.state = v := by
  unfold commit
  split
  · next h => exact h.symm
  · simp [runNotifiers_store]

theorem commit_initial [DecidableEq α] (v : α) (w : World α) :
    (commit v w).store.initial = w.store.initial := by
  unfold commit
  split
  · rfl
  · simp [runNotifiers_store]

theorem commit_listeners [DecidableEq α] (v : α) (w : World α) :
    (commit v w).store.listeners = w.store.listeners := by
  unfold commit
  split
  · rfl
  · simp [runNotifiers_store]

/-- Characterisation of a run of writes while a batch is active: state tracks
the pure fold synchronously, listeners and log are untouched, and notifier 0
is queued exactly when some write passed the gate. -/
theorem runWrites_pos [DecidableEq α] (ws : List (WriteOp α)) (w : World α)
    (h : 0 < w.bs.depth) :
    runWrites ws w =
      { store := { w.store with state := foldNext ws w.store.state w.store.initial },
        bs := { w.bs with queue :=
          (if anyEffective ws w.store.state w.store.initial then setAdd 0 w.bs.queue
           else w.bs.queue) },
        log := w.log } := by
  induction ws generalizing w with
  | nil => simp [runWrites, foldNext, anyEffective]
  | cons op rest ih =>
      show runWrites rest (doWrite op w) = _
      by_cases hop : opNextV op w.store.state w.store.initial = w.store.state
      · have hdw : doWrite op w = w := by
          unfold doWrite
          exact commit_noop hop
        rw [hdw, ih w h]
        simp [foldNext, anyEffective, hop]
      · have hdw : doWrite op w =
            { w with store := { w.store with state := opNextV op w.store.state w.store.initial },
                     bs := { w.bs with queue := setAdd 0 w.bs.queue } } := by
          unfold doWrite
          exact commit_pos h hop
        rw [hdw]
        rw [ih { w with store := { w.store with state := opNextV op w.store.state w.store.initial },
                        bs := { w.bs with queue := setAdd 0 w.bs.queue } } h]
        by_cases heff : anyEffective rest (opNextV op w.store.state w.store.initial) w.store.initial = true
        · simp [foldNext, anyEffective, hop, heff, setAdd_idem]
        · simp [foldNext, anyEffective, hop, heff]

theorem runWrites_initial [DecidableEq α] (ws : List (WriteOp α)) (w : World α) :
    (runWrites ws w).store.initial = w.store.initial := by
  induction ws generalizing w with
  | nil => rfl
  | cons op rest ih =>
      show (runWrites rest (doWrite op w)).store.initial = w.store.initial
      rw [ih]
      exact commit_initial _ _

theorem runWrites_listeners [DecidableEq α] (ws : List (WriteOp α)) (w : World α) :
    (runWrites ws w).store.listeners = w.store.listeners := by
  induction ws generalizing w with
  | nil => rfl
  | cons op rest ih =>
      show (runWrites rest (doWrite op w)).store.listeners = w.store.listeners
      rw [ih]
      exact commit_listeners _ _

theorem ctxRunWrites_hyd [DecidableEq α] (ops : List (CtxOp α)) (w : CtxWorld α) :
    (ctxRunWrites ops w).hyd = w.hyd := by
  induction ops generalizing w with
  | nil => rfl
  | cons op rest ih =>
      show (ctxRunWrites rest (ctxDoWrite op w)).hyd = w.hyd
      rw [ih]
      cases op with
      | set u =>
          show (ctxCommit (evalUpd u w.state) w).hyd = w.hyd
          unfold ctxCommit
          split <;> rfl
      | repl v =>
          show (ctxCommit v w).hyd = w.hyd
          unfold ctxCommit
          split <;> rfl

/-- The snapshot pass invokes exactly the listeners captured in the
snapshot, in order, whatever the invoked listeners do to the live set. -/
theorem runPass_log (eff : Nat → List Nat → List Nat) (todo cur : List Nat) :
    (runPass eff todo cur).2 = todo := by
  induction todo generalizing cur with
  | nil => rfl
  | cons l rest ih => simp [runPass, ih]

theorem flushB_eq (s : BState) : flushB s = ({ s with queue := [] }, s.queue) := by
  obtain ⟨d, q⟩ := s
  by_cases h : q = []
  · subst h
    rfl
  · show flushB ⟨d, q⟩ = _
    unfold flushB
    rw [if_neg h]

/-- An outermost `run` (entered at depth 0): the body runs at depth 1 and
invokes nothing; at exit the queue accumulated by the body is flushed in
order, the queue is cleared, depth returns to 0, and the body's exception
status is passed through. -/
theorem execB_batched_zero (a : BAct) (s : BState) (h0 : s.depth = 0) :
    execB (.batched a) s =
      ⟨⟨0, []⟩, (execB a { s with depth := s.depth + 1 }).st.queue,
        (execB a { s with depth := s.depth + 1 }).threw⟩ := by
  have h1 : (execB a { s with depth := s.depth + 1 }).st.depth = s.depth + 1 :=
    execB_depth a _
  have hlg : (execB a { s with depth := s.depth + 1 }).log = [] :=
    execB_log_empty a _ (by simp)
  simp only [execB]
  rw [if_pos (show (execB a { s with depth := s.depth + 1 }).st.depth - 1 = 0 by
    rw [h1]; omega)]
  rw [flushB_eq, hlg]
  simp [h1]
  exact h0

/-- Full effect of an outermost batch of writes on one store, when at least
one write passes the gate: state is the synchronous fold of the writes, the
listener set survives, the coordinator ends at depth 0 with an empty queue,
and the whole listener snapshot is invoked once, appended to the log after
the body ran. -/
theorem batchW_eq {α : Type} [DecidableEq α] (ws : List (WriteOp α)) (w : World α)
    (h0 : w.bs.depth = 0) (hq : w.bs.queue = [])
    (heff : anyEffective ws w.store.state w.store.initial = true) :
    batchW ws w =
      ⟨⟨foldNext ws w.store.state w.store.initial, w.store.initial, w.store.listeners⟩,
        ⟨0, []⟩, w.log ++ w.store.listeners⟩ := by
  have hw2 : runWrites ws { w with bs := { w.bs with depth := w.bs.depth + 1 } }
      = { store := { w.store with state := foldNext ws w.store.state w.store.initial },
          bs := ⟨w.bs.depth + 1, [0]⟩,
          log := w.log } := by
    rw [runWrites_pos ws { w with bs := { w.bs with depth := w.bs.depth + 1 } } (by simp)]
    simp [heff, hq, setAdd]
  simp only [batchW]
  rw [hw2]
  simp [h0, flushB_eq, runNotifiers_zero, notifyNow]

/-- C1 (amended): for an outermost `batch` of writes to one store in which
at least one write changes the state under `Object.is`, every listener
subscribed for the whole batch is invoked exactly once, after the body and
synchronously within the batch call; inside the batch the state always
equals the value produced by the most recent preceding write, with no
listener invoked before the flush.  (When every write is an `Object.is`
no-op the listeners are invoked zero times — see the counterexample.) -/
theorem batch_collapses_notifications {α : Type} [DecidableEq α]
    (ws : List (WriteOp α)) (w : World α) (k : Nat)
    (h0 : w.bs.depth = 0) (hq : w.bs.queue = [])
    (hnd : w.store.listeners.Nodup)
    (heff : anyEffective ws w.store.state w.store.initial = true) :
    (batchW ws w).log = w.log ++ w.store.listeners ∧
    (∀ l ∈ w.store.listeners, ((batchW ws w).log.drop w.log.length).count l = 1) ∧
    (batchW ws w).store.state = foldNext ws w.store.state w.store.initial ∧
    (batchW ws w).store.listeners = w.store.listeners ∧
    (batchW ws w).bs = ⟨0, []⟩ ∧
    (runWrites (ws.take k) { w with bs := { w.bs with depth := w.bs.depth + 1 } }).store.state
      = foldNext (ws.take k) w.store.state w.store.initial ∧
    (runWrites (ws.take k) { w with bs := { w.bs with depth := w.bs.depth + 1 } }).log
      = w.log := by
  have hb := batchW_eq ws w h0 hq heff
  have hk := runWrites_pos (ws.take k)
    { w with bs := { w.bs with depth := w.bs.depth + 1 } } (by simp)
  refine ⟨by rw [hb], ?_, by rw [hb], by rw [hb], by rw [hb], by rw [hk], by rw [hk]⟩
  intro l hl
  rw [hb]
  show ((w.log ++ w.store.listeners).drop w.log.length).count l = 1
  rw [List.drop_left]
  exact List.count_eq_one_of_mem hnd hl

/-- Concrete instance of `batch_collapses_notifications`: two effective
writes inside one batch, two listeners, each invoked exactly once after the
body, with the state visible inside the batch tracking the writes. -/
theorem batch_collapses_notifications_witness :
    (batchW [WriteOp.set 1, WriteOp.set 2] (⟨⟨0, 0, [1, 2]⟩, ⟨0, []⟩, []⟩ : World Nat)).log
      = [] ++ [1, 2] ∧
    (∀ l ∈ (⟨⟨0, 0, [1, 2]⟩, ⟨0, []⟩, []⟩ : World Nat).store.listeners,
      ((batchW [WriteOp.set 1, WriteOp.set 2]
        (⟨⟨0, 0, [1, 2]⟩, ⟨0, []⟩, []⟩ : World Nat)).log.drop 0).count l = 1) ∧
    (batchW [WriteOp.set 1, WriteOp.set 2]
      (⟨⟨0, 0, [1, 2]⟩, ⟨0, []⟩, []⟩ : World Nat)).store.state
      = foldNext [WriteOp.set 1, WriteOp.set 2] 0 0 ∧
    (batchW [WriteOp.set 1, WriteOp.set 2]
      (⟨⟨0, 0, [1, 2]⟩, ⟨0, []⟩, []⟩ : World Nat)).store.listeners = [1, 2] ∧
    (batchW [WriteOp.set 1, WriteOp.set 2]
      (⟨⟨0, 0, [1, 2]⟩, ⟨0, []⟩, []⟩ : World Nat)).bs = ⟨0, []⟩ ∧
    (runWrites ([WriteOp.set 1, WriteOp.set 2].take 1)
      (⟨⟨0, 0, [1, 2]⟩, ⟨1, []⟩, []⟩ : World Nat)).store.state
      = foldNext ([WriteOp.set 1, WriteOp.set 2].take 1) 0 0 ∧
    (runWrites ([WriteOp.set 1, WriteOp.set 2].take 1)
      (⟨⟨0, 0, [1, 2]⟩, ⟨1, []⟩, []⟩ : World Nat)).log = [] :=
  batch_collapses_notifications [WriteOp.set 1, WriteOp.set 2]
    ⟨⟨0, 0, [1, 2]⟩, ⟨0, []⟩, []⟩ 1 rfl rfl (by decide) (by decide)

/-- C1 counterexample: one write (`N = 1`) whose value is `Object.is`-equal
to the current state, inside one outermost batch: the subscribed listener 1
is invoked zero times, not exactly once as the claim states for every
sequence of `N ≥ 1` writes. -/
theorem batch_noop_writes_skip_notification :
    (batchW [WriteOp.set 0] (⟨⟨0, 0, [1]⟩, ⟨0, []⟩, []⟩ : World Nat)).log.count 1 = 0 ∧
    1 ∈ (⟨⟨0, 0, [1]⟩, ⟨0, []⟩, []⟩ : World Nat).store.listeners ∧
    ([WriteOp.set 0] : List (WriteOp Nat)).length = 1 := by
  refine ⟨by decide, by decide, rfl⟩

/-- C2: with no batch active, `setState`/`replace` with a value
`Object.is`-equal to the current state changes nothing and invokes no
listener; with a different value it assigns the state and synchronously
invokes each currently subscribed listener exactly once. -/
theorem write_gate_outside_batch {α : Type} [DecidableEq α]
    (w : World α) (v : α) (l : Nat)
    (h0 : w.bs.depth = 0) (hnd : w.store.listeners.Nodup)
    (hl : l ∈ w.store.listeners) :
    (v = w.store.state → doWrite (.set v) w = w ∧ doWrite (.repl v) w = w) ∧
    (v ≠ w.store.state →
      doWrite (.set v) w = { w with store := { w.store with state := v },
                                    log := w.log ++ w.store.listeners } ∧
      doWrite (.repl v) w = { w with store := { w.store with state := v },
                                     log := w.log ++ w.store.listeners } ∧
      w.store.listeners.count l = 1) := by
  constructor
  · intro h
    exact ⟨commit_noop h, commit_noop h⟩
  · intro h
    exact ⟨commit_zero h0 h, commit_zero h0 h, List.count_eq_one_of_mem hnd hl⟩

/-- Concrete instance of `write_gate_outside_batch`. -/
theorem write_gate_outside_batch_witness :
    ((1 : Nat) = 0 →
      doWrite (.set 1) (⟨⟨0, 0, [1]⟩, ⟨0, []⟩, []⟩ : World Nat) = ⟨⟨0, 0, [1]⟩, ⟨0, []⟩, []⟩ ∧
      doWrite (.repl 1) (⟨⟨0, 0, [1]⟩, ⟨0, []⟩, []⟩ : World Nat) = ⟨⟨0, 0, [1]⟩, ⟨0, []⟩, []⟩) ∧
    ((1 : Nat) ≠ 0 →
      doWrite (.set 1) (⟨⟨0, 0, [1]⟩, ⟨0, []⟩, []⟩ : World Nat) = ⟨⟨1, 0, [1]⟩, ⟨0, []⟩, [1]⟩ ∧
      doWrite (.repl 1) (⟨⟨0, 0, [1]⟩, ⟨0, []⟩, []⟩ : World Nat) = ⟨⟨1, 0, [1]⟩, ⟨0, []⟩, [1]⟩ ∧
      ([1] : List Nat).count 1 = 1) :=
  write_gate_outside_batch ⟨⟨0, 0, [1]⟩, ⟨0, []⟩, []⟩ 1 1 rfl (by decide) (by decide)

/-- C4: the `BatchNotifier` invariants — depth is always restored; with no
batch active the queue is empty whenever control returns; a notifier
enqueued any number of times inside one outermost batch is invoked at most
once at its completion; `_flush` captures and clears the pending set before
invoking anything; and an enqueue performed at depth 0 after the clear
(e.g. by a running notifier) is invoked immediately against the empty
queue. -/
theorem batchNotifier_invariants :
    (∀ (a : BAct) (s : BState), (execB a s).st.depth = s.depth) ∧
    (∀ (a : BAct) (s : BState), s.depth = 0 → s.queue = [] →
      (execB a s).st.queue = []) ∧
    (∀ (a : BAct) (s : BState), s.depth = 0 → s.queue = [] →
      ∀ n, (execB (.batched a) s).log.count n ≤ 1) ∧
    (∀ s : BState, (flushB s).1.queue = [] ∧ (flushB s).2 = s.queue) ∧
    (∀ (s : BState) (n : Nat), s.depth = 0 →
      enqueueB n (flushB s).1 = ((flushB s).1, [n])) := by
  refine ⟨execB_depth, execB_queue_empty, ?_,
    fun s => ⟨flushB_queue s, flushB_run s⟩, ?_⟩
  · intro a s h0 hq n
    rw [execB_batched_zero a s h0]
    show ((execB a { s with depth := s.depth + 1 }).st.queue.count n) ≤ 1
    have hnd : (execB a { s with depth := s.depth + 1 }).st.queue.Nodup :=
      execB_queue_nodup a _ (by simp [hq])
    exact List.nodup_iff_count_le_one.mp hnd n
  · intro s n h0
    unfold enqueueB
    rw [if_neg (by rw [flushB_depth]; omega)]

/-- Concrete instance of `batchNotifier_invariants`. -/
theorem batchNotifier_invariants_witness :
    (execB (.batched (.seq (.enq 0) (.enq 0))) ⟨0, []⟩).log.count 0 ≤ 1 ∧
    (execB (.seq (.enq 5) (.batched (.enq 6))) ⟨0, []⟩).st.queue = [] ∧
    enqueueB 7 (flushB ⟨0, [0, 3]⟩).1 = ((flushB ⟨0, [0, 3]⟩).1, [7]) :=
  ⟨batchNotifier_invariants.2.2.1 (.seq (.enq 0) (.enq 0)) ⟨0, []⟩ rfl rfl 0,
   batchNotifier_invariants.2.1 (.seq (.enq 5) (.batched (.enq 6))) ⟨0, []⟩ rfl rfl,
   batchNotifier_invariants.2.2.2.2 ⟨0, [0, 3]⟩ 7 rfl⟩

/-- C5: when the body of an outermost batch throws at any nesting depth,
the depth counter is still decremented back to 0, the notifiers enqueued
before the exception are still flushed (they make up the whole invocation
log of the batch) with the queue left empty, and the exception propagates
to the caller; nested `run` calls restore depth under exceptions too. -/
theorem batch_exception_decrements_and_flushes (a : BAct) (s : BState)
    (h0 : s.depth = 0) (_hq : s.queue = []) :
    (execB (.batched a) s).st.depth = s.depth ∧
    (execB (.batched a) s).st.queue = [] ∧
    (execB (.batched a) s).log = (execB a { s with depth := s.depth + 1 }).st.queue ∧
    (execB (.batched a) s).threw = (execB a { s with depth := s.depth + 1 }).threw ∧
    (∀ (b : BAct) (t : BState), (execB b t).st.depth = t.depth) := by
  rw [execB_batched_zero a s h0]
  exact ⟨h0.symm, rfl, rfl, rfl, execB_depth⟩

/-- Concrete instance of `batch_exception_decrements_and_flushes`: the body
enqueues notifier 3, then throws; notifier 4 is never enqueued.  The batch
still flushes notifier 3, ends at depth 0 and reports the exception. -/
theorem batch_exception_decrements_and_flushes_witness :
    (execB (.batched (.seq (.enq 3) (.seq .throwErr (.enq 4)))) ⟨0, []⟩).st.depth = 0 ∧
    (execB (.batched (.seq (.enq 3) (.seq .throwErr (.enq 4)))) ⟨0, []⟩).st.queue = [] ∧
    (execB (.batched (.seq (.enq 3) (.seq .throwErr (.enq 4)))) ⟨0, []⟩).log
      = (execB (.seq (.enq 3) (.seq .throwErr (.enq 4))) ⟨1, []⟩).st.queue ∧
    (execB (.batched (.seq (.enq 3) (.seq .throwErr (.enq 4)))) ⟨0, []⟩).threw
      = (execB (.seq (.enq 3) (.seq .throwErr (.enq 4))) ⟨1, []⟩).threw ∧
    (∀ (b : BAct) (t : BState), (execB b t).st.depth = t.depth) :=
  batch_exception_decrements_and_flushes (.seq (.enq 3) (.seq .throwErr (.enq 4)))
    ⟨0, []⟩ rfl rfl

/-- C3 (amended): in `useStoreSelector`, whenever the selector or equality
function identity differs from the one observed at the previous render, the
baseline is immediately re-seeded as the new selector applied to the
current store state (so no later comparison can use a baseline produced by
the old selector).  The context wrapper's `useSelector` does not have this
property — see the counterexample. -/
theorem useStoreSelector_reseeds_baseline {α S : Type}
    (sel : FnId α S) (eqf : EqFn S) (cur : α) (st : SelState S)
    (h : st.selId ≠ sel.id ∨ st.eqId ≠ eqf.id) :
    renderSel sel eqf cur st = ⟨sel.id, eqf.id, sel.fn cur⟩ := by
  unfold renderSel
  rw [if_pos h]

/-- Concrete instance of `useStoreSelector_reseeds_baseline`. -/
theorem useStoreSelector_reseeds_baseline_witness :
    renderSel ⟨2, fun x => x + 1⟩ ⟨5, fun a b => decide (a = b)⟩ 3
      (⟨1, 5, 99⟩ : SelState Nat) = ⟨2, 5, 4⟩ :=
  useStoreSelector_reseeds_baseline ⟨2, fun x => x + 1⟩ ⟨5, fun a b => decide (a = b)⟩
    3 ⟨1, 5, 99⟩ (by decide)

/-- C3 counterexample: in the context wrapper's `useSelector`, after the
first render used selector `fun _ => 42` over state 12, a re-render with a
new selector identity (`fun x => x`) leaves the baseline at 42 instead of
re-seeding it to 12; the next poll then compares against the old selector's
baseline and, with a coarser equality function, even returns 42 — a value
the new selector never produced. -/
theorem ctx_useSelector_stale_baseline :
    (ctxRenderSel ⟨2, fun x => x⟩ ⟨3, fun a b => decide (a % 10 = b % 10)⟩ 12
      (ctxInitSel ⟨1, fun _ => 42⟩ (12 : Nat))).last = 42 ∧
    (fun x : Nat => x) 12 = 12 ∧ (42 : Nat) ≠ 12 ∧
    (ctxPollSel (fun x => x) (fun a b => decide (a % 10 = b % 10)) 12
      (ctxRenderSel ⟨2, fun x => x⟩ ⟨3, fun a b => decide (a % 10 = b % 10)⟩ 12
        (ctxInitSel ⟨1, fun _ => 42⟩ (12 : Nat)))).2 = 42 := by
  exact ⟨rfl, rfl, by decide, rfl⟩

/-- C6: for every store and any finite sequence of `setState`/`replace`/
`reset` calls, `getInitialState()` still returns the construction-time
initial value, and a `reset()` followed by `getState()` yields exactly the
value `getInitialState()` returns. -/
theorem initial_frozen_reset_restores {α : Type} [DecidableEq α]
    (ws : List (WriteOp α)) (w : World α) :
    getInitialState (runWrites ws w).store = getInitialState w.store ∧
    (doWrite .reset (runWrites ws w)).store.state = getInitialState w.store := by
  refine ⟨runWrites_initial ws w, ?_⟩
  show (commit (opNextV .reset _ _) _).store.state = _
  rw [commit_state]
  exact runWrites_initial ws w

/-- C7 (amended): `TinyStore._notify` iterates over a snapshot of the
listener set, so every listener registered when the pass started is invoked
exactly once, in order, no matter which listeners the invoked callbacks
unsubscribe; the context wrapper's Provider-local store iterates the live
set instead and does not have this property (see the counterexample). -/
theorem tinyStore_notify_snapshot_complete (eff : Nat → List Nat → List Nat)
    (ls cur : List Nat) (l : Nat) :
    (runPass eff ls cur).2 = ls ∧ (runPass eff ls cur).2.count l = ls.count l := by
  refine ⟨runPass_log eff ls cur, ?_⟩
  rw [runPass_log eff ls cur]

/-- C7 counterexample: in the context-local store of `createContextSync`,
notification iterates the live `Set`.  With listeners `[1, 2]` registered,
listener 1 unsubscribing listener 2 during the pass makes the pass skip
listener 2 entirely, refuting the claim for the per-Provider store. -/
theorem ctx_notify_live_skips_listener :
    (runPassLive (fun l cur => if l = 1 then cur.filter (fun x => x ≠ 2) else cur)
      [1, 2] [1, 2]).2 = [1] ∧
    2 ∈ ([1, 2] : List Nat) ∧ 2 ∉ ([1] : List Nat) := by
  refine ⟨rfl, by decide, by decide⟩

/-- C8: the server/first-render snapshot accessor applies the selector to
the frozen construction-time initial state, for `useStoreSelector` over a
`TinyStore` and for the context wrapper's `useSelector` over the Provider's
frozen hydration value, and is unaffected by any later writes. -/
theorem server_snapshot_frozen {α S : Type} [DecidableEq α]
    (ws : List (WriteOp α)) (w : World α) (sel : α → S)
    (ops : List (CtxOp α)) (cw : CtxWorld α) (i : α) :
    getServerSnap sel (runWrites ws w).store = sel (getInitialState w.store) ∧
    ctxServerSnap sel (ctxRunWrites ops cw) = sel cw.hyd ∧
    ctxServerSnap sel (ctxRunWrites ops (providerInit i)) = sel i := by
  refine ⟨?_, ?_, ?_⟩
  · show sel (runWrites ws w).store.initial = sel w.store.initial
    rw [runWrites_initial]
  · show sel (ctxRunWrites ops cw).hyd = sel cw.hyd
    rw [ctxRunWrites_hyd]
  · show sel (ctxRunWrites ops (providerInit i)).hyd = sel i
    rw [ctxRunWrites_hyd]
    rfl

/-- C9 (amended): the `storeAccess` object built by `useStoreActions`
exposes all four operations, each wired to the bound store's method; the
context wrapper's `useActions` builds an object wired to the context-local
store that exposes only `get`, `set` and `replace` — it has no `reset`. -/
theorem storeAccess_operations {α : Type} [DecidableEq α] :
    (hooksStoreAccess α).get? = some storeGetState ∧
    (hooksStoreAccess α).set? = some storeSetState ∧
    (hooksStoreAccess α).replace? = some storeReplace ∧
    (hooksStoreAccess α).reset? = some storeReset ∧
    (ctxStoreAccess α).get? = some ctxGetState ∧
    (ctxStoreAccess α).set? = some ctxSetState ∧
    (ctxStoreAccess α).replace? = some ctxReplace ∧
    (ctxStoreAccess α).reset? = none :=
  ⟨rfl, rfl, rfl, rfl, rfl, rfl, rfl, rfl⟩

/-- C9 counterexample: the `storeAccess` object handed to factories by the
context wrapper's `useActions` exposes no `reset` operation, refuting the
claim that both controller helpers expose all four operations. -/
theorem ctx_useActions_lacks_reset : (ctxStoreAccess Nat).reset? = none := rfl

/-- C10: a throwing updater makes `setState` propagate the exception with
no state change, no listener-set change, no listener invocation and no
notifier enqueued — for the `TinyStore` and for the context-local store. -/
theorem throwing_updater_atomic {α : Type} [DecidableEq α]
    (f : α → Except Unit α) (w : World α) (e : Unit)
    (g : α → Except Unit α) (cw : CtxWorld α) (e2 : Unit)
    (h : f w.store.state = .error e) (h2 : g cw.state = .error e2) :
    setStateE f w = (w, some e) ∧ ctxSetStateE g cw = (cw, some e2) := by
  constructor
  · unfold setStateE
    rw [h]
  · unfold ctxSetStateE
    rw [h2]

/-- Concrete instance of `throwing_updater_atomic`. -/
theorem throwing_updater_atomic_witness :
    setStateE (fun _ => .error ()) (⟨⟨0, 0, [1]⟩, ⟨0, []⟩, []⟩ : World Nat)
      = (⟨⟨0, 0, [1]⟩, ⟨0, []⟩, []⟩, some ()) ∧
    ctxSetStateE (fun _ => .error ()) (⟨5, [2], 5, []⟩ : CtxWorld Nat)
      = (⟨5, [2], 5, []⟩, some ()) :=
  throwing_updater_atomic (fun _ => .error ()) _ () (fun _ => .error ()) _ () rfl rfl

end ReactTinyStore
